import Mathlib

/-!
Shallow embedding of the `capture_pdf` package (screen capture to PDF tool)
and proofs about its specification.

The embedding follows the Python sources:
* `capture_pdf/pdf_compiler.py`  — `PDFCompiler.compile`, `PDFCompiler.compile_from_files`
* `capture_pdf/capturer.py`      — `cg_image_to_pil`, `ScreenCapturer.capture_full_screen`,
                                    `ScreenCapturer.capture_region`, `CaptureRegion`
* `capture_pdf/navigator.py`     — `PageNavigator.press_key`, `PageNavigator.click`
* `capture_pdf/cli.py`           — `capture_book` (orchestrator loop), the `compile`
                                    command's file sorting

Modelling conventions:
* PIL images are modelled as a mode string, pixel dimensions, and a row-major
  pixel list.  Each pixel is stored as an (r, g, b, a) quadruple of naturals:
  for modes without an alpha channel the `a` slot is 255 by convention, and for
  non-RGB color modes (`L`, `LA`, `P`, ...) the r, g, b slots hold the RGB
  interpretation of the pixel, which is what PIL's `convert("RGB")` produces.
* The ghost field `resampled` records which resampling filter (if any) produced
  the image; `Image.resize` sets it, everything else leaves it `none`.  It
  exists so that theorems can talk about which filter a resize call used.
* Pixel arithmetic of `Image.paste` with an alpha mask follows Pillow's
  fixed-point blend `MULDIV255` exactly; the floating-point Lanczos
  resampling kernel is not modelled at the pixel level (only the dimensions,
  mode and filter choice of a resize are meaningful).
* Fallible operations return `Except String`, the string being the Python
  exception message.  Platform effects (Quartz capture, event synthesis, the
  final PDF write) are supplied as explicit oracle arguments.
-/

namespace CapturePdf

/-- Output paths are plain strings in this model. -/
abbrev FsPath := String

/-- Resampling filters of `PIL.Image.Resampling` that matter here. -/
inductive Resampling
  | lanczos
  | nearest
  | bilinear
  | bicubic
deriving DecidableEq

/-- A PIL image: color mode string, pixel dimensions, row-major pixels stored
as (r, g, b, a) quadruples, and a ghost tag recording the resampling filter
that produced the image (if any). -/
structure Image where
  mode : String
  width : Nat
  height : Nat
  pixels : List (Nat × Nat × Nat × Nat)
  resampled : Option Resampling := none
deriving DecidableEq

/-- PIL color modes that carry an alpha channel (Pillow's modes with
transparency information: RGBA, LA, PA and the premultiplied variants). -/
def hasAlpha (mode : String) : Bool :=
  mode = "RGBA" || mode = "LA" || mode = "PA" || mode = "RGBa" || mode = "La"

/-- Pillow's fixed-point `MULDIV255(a, b)` macro: `tmp := a * b + 128;
((tmp >> 8) + tmp) >> 8`, an exact byte-range division by 255. -/
def muldiv255 (a b : Nat) : Nat :=
  ((a * b + 128) / 256 + (a * b + 128)) / 256

/-- One channel of Pillow's masked paste onto a white background:
`BLEND(mask, 255, c) = MULDIV255(255, 255 - mask) + MULDIV255(c, mask)`. -/
def blendWhite (c a : Nat) : Nat :=
  muldiv255 255 (255 - a) + muldiv255 c a

/-- Embeds the RGBA branch of `PDFCompiler.compile`:
`background = Image.new('RGB', img.size, (255, 255, 255));
background.paste(img, mask=img.split()[3])`.  Every pixel is blended onto
opaque white using its alpha value as the mask. -/
def flattenWhite (img : Image) : Image :=
  { mode := "RGB"
    width := img.width
    height := img.height
    pixels := img.pixels.map fun p =>
      (blendWhite p.1 p.2.2.2, blendWhite p.2.1 p.2.2.2, blendWhite p.2.2.1 p.2.2.2, 255)
    resampled := none }

/-- Embeds `img.convert('RGB')` for the source modes reaching it (`L`, `LA`,
`P`, `PA`, ...): the stored RGB interpretation of each pixel is kept and any
alpha channel is discarded (Pillow's `convert` does not blend;
e.g. `la2rgb` copies L into R, G, B and sets A = 255). -/
def convertRGB (img : Image) : Image :=
  { mode := "RGB"
    width := img.width
    height := img.height
    pixels := img.pixels.map fun p => (p.1, p.2.1, p.2.2.1, 255)
    resampled := none }

/-- Loop body of `PDFCompiler.compile`'s conversion pass:
mode `'RGBA'` is flattened onto white, any other non-`'RGB'` mode is converted
with `convert('RGB')`, and `'RGB'` images pass through unchanged. -/
def toRGBPage (img : Image) : Image :=
  if img.mode = "RGBA" then flattenWhite img
  else if img.mode ≠ "RGB" then convertRGB img
  else img

/-- The compiled PDF document: output path, pages in order, and the
resolution (dots per inch) passed to `save`. -/
structure PDFDoc where
  path : FsPath
  pages : List Image
  resolution : Nat
deriving DecidableEq

namespace PDFCompiler

/-- Embeds `PDFCompiler.compile`.  An empty list raises
`ValueError("No images provided")` before anything is written; otherwise every
image is converted by the loop above and `first_image.save(output_path, "PDF",
...)` writes the first converted image as page 1 with the remaining converted
images appended in order (`append_images=rgb_images[1:]`) at resolution `dpi`.
A returned `PDFDoc` is the single write performed; `.error` means no file was
produced. -/
def compile (images : List Image) (output_path : FsPath) (dpi : Nat) :
    Except String PDFDoc :=
  match images with
  | [] => .error "No images provided"
  | _ :: _ =>
    let rgb_images := images.map toRGBPage
    .ok { path := output_path, pages := rgb_images, resolution := dpi }

/-- Embeds `PDFCompiler.compile_from_files`: decode the image at every path in
the given order (`fsOpen` is the `Image.open` oracle), delegate to `compile`,
and on return close each decoded image in order.  The second component of a
successful result is the list of images that were closed. -/
def compile_from_files (fsOpen : FsPath → Image) (image_paths : List FsPath)
    (output_path : FsPath) (dpi : Nat) : Except String (PDFDoc × List Image) :=
  let images := image_paths.map fsOpen
  match compile images output_path dpi with
  | .error e => .error e
  | .ok doc =>
    let closed := images.foldl (fun acc img => acc ++ [img]) []
    .ok (doc, closed)

end PDFCompiler

/-- A Quartz `CGImage` as consumed by `cg_image_to_pil`: dimensions, row
stride in bytes, and the raw BGRA byte buffer copied out of the data
provider.  Bytes beyond the buffer read as 0, matching a zero-filled copy. -/
structure CGImage where
  width : Nat
  height : Nat
  bytesPerRow : Nat
  data : List Nat
deriving DecidableEq

/-- Reads byte `i` of a copied buffer. -/
def byteAt (data : List Nat) (i : Nat) : Nat :=
  data.getD i 0

/-- Embeds `cg_image_to_pil`: the buffer is reshaped to
`(height, bytesPerRow / 4, 4)`, cropped to `width` columns, the channels are
permuted from BGRA to RGBA (`arr[:, :, [2, 1, 0, 3]]`), and the result is
wrapped as a PIL image with `mode='RGBA'`. -/
def cg_image_to_pil (cg : CGImage) : Image :=
  { mode := "RGBA"
    width := cg.width
    height := cg.height
    pixels := (List.range cg.height).flatMap fun row =>
      (List.range cg.width).map fun col =>
        let off := row * cg.bytesPerRow + col * 4
        (byteAt cg.data (off + 2), byteAt cg.data (off + 1),
         byteAt cg.data off, byteAt cg.data (off + 3))
    resampled := none }

/-- The `CaptureRegion` dataclass: a rectangle in pixel coordinates.  The
Python fields are `int`; the origin may be negative (multi-display layouts)
while the embedding takes the two extents as naturals. -/
structure CaptureRegion where
  x : Int
  y : Int
  width : Nat
  height : Nat
deriving DecidableEq

/-- Embeds `PIL.Image.resize(size, filter)`: the result has the requested
dimensions and the source's mode, and the ghost field records the filter.
Pixel values of the platform resampler are abstracted by index sampling (the
floating-point kernel is not modelled; no theorem depends on these values). -/
def Image.resize (img : Image) (size : Nat × Nat) (filter : Resampling) : Image :=
  { mode := img.mode
    width := size.1
    height := size.2
    pixels := (List.range size.2).flatMap fun y =>
      (List.range size.1).map fun x =>
        img.pixels.getD ((y * img.height / size.2) * img.width + x * img.width / size.1)
          (0, 0, 0, 0)
    resampled := some filter }

namespace ScreenCapturer

/-- Embeds `ScreenCapturer.capture_full_screen`; `platform` is the outcome of
`CGWindowListCreateImage(CGRectInfinite, ...)`, `none` when the platform
returns no image. -/
def capture_full_screen (platform : Option CGImage) : Except String Image :=
  match platform with
  | none => .error ("Screen capture failed. Please ensure Screen Recording permission is granted " ++
      "in System Preferences > Privacy & Security > Screen Recording")
  | some cg => .ok (cg_image_to_pil cg)

/-- Embeds `ScreenCapturer.capture_region`; `platform` is the outcome of
`CGWindowListCreateImage(rect, ...)` for the region's rect.  When the
converted image's dimensions differ from the requested region (Retina
scaling) it is resized to the requested size with `Image.Resampling.LANCZOS`. -/
def capture_region (platform : Option CGImage) (region : CaptureRegion) :
    Except String Image :=
  match platform with
  | none => .error "Region capture failed. Check Screen Recording permission."
  | some cg =>
    let image := cg_image_to_pil cg
    if image.width ≠ region.width ∨ image.height ≠ region.height then
      .ok (image.resize (region.width, region.height) Resampling.lanczos)
    else
      .ok image

end ScreenCapturer

/-- Decides whether an `Except` result is a success (a run that raised no
exception). -/
def exOk {ε α : Type} : Except ε α → Bool
  | .ok _ => true
  | .error _ => false

/-- Extracts the success value of an `Except`, with a default for errors. -/
def exValue {ε α : Type} (x : Except ε α) (d : α) : α :=
  match x with
  | .ok a => a
  | .error _ => d

/-- Quartz mouse event type constants used by `PageNavigator.click`. -/
def kCGEventLeftMouseDown : Nat := 1

/-- Quartz constant `kCGEventLeftMouseUp`. -/
def kCGEventLeftMouseUp : Nat := 2

/-- Quartz constant `kCGEventMouseMoved`. -/
def kCGEventMouseMoved : Nat := 5

/-- Source `KeyCode.RIGHT_ARROW = 0x7C`. -/
def keyCodeRightArrow : Nat := 0x7C

/-- Source `KeyCode.LEFT_ARROW = 0x7B`. -/
def keyCodeLeftArrow : Nat := 0x7B

/-- The platform side of Quartz event synthesis: which event creations the OS
is willing to perform.  `CGEventCreateKeyboardEvent(None, key, down)` returns
an event iff `keyboardEventOk key down`; `CGEventCreateMouseEvent(None, kind,
point, button)` returns an event iff `mouseEventOk kind point`.  A refusal
makes the corresponding call return `None` (`NULL`). -/
structure InputPlatform where
  keyboardEventOk : Nat → Bool → Bool
  mouseEventOk : Nat → Int × Int → Bool

/-- A keyboard event value as created by the platform. -/
structure KeyboardEvent where
  key : Nat
  down : Bool
deriving DecidableEq

/-- A mouse event value as created by the platform. -/
structure MouseEvent where
  kind : Nat
  pos : Int × Int
deriving DecidableEq

/-- Embeds `CGEventCreateKeyboardEvent(None, key, down)`. -/
def CGEventCreateKeyboardEvent (p : InputPlatform) (key : Nat) (down : Bool) :
    Option KeyboardEvent :=
  if p.keyboardEventOk key down then some ⟨key, down⟩ else none

/-- Embeds `CGEventCreateMouseEvent(None, kind, point, kCGMouseButtonLeft)`. -/
def CGEventCreateMouseEvent (p : InputPlatform) (kind : Nat) (pos : Int × Int) :
    Option MouseEvent :=
  if p.mouseEventOk kind pos then some ⟨kind, pos⟩ else none

/-- An event actually posted to `kCGHIDEventTap`, with the flags set by
`CGEventSetFlags` (0 when no modifiers) and the click state set by
`CGEventSetIntegerValueField` (0 when unset). -/
inductive PostedEvent
  | keyboard (key : Nat) (down : Bool) (flags : Nat)
  | mouse (kind : Nat) (pos : Int × Int) (clickState : Nat)
deriving DecidableEq

/-- Embeds `CGEventPost(kCGHIDEventTap, event)` for a possibly-`None`
keyboard event: posting a `NULL` event is a no-op (the CoreGraphics call
accepts `NULL` and synthesizes nothing; the Python wrapper does not raise). -/
def postKeyboard (ev : Option KeyboardEvent) (flags : Nat) : List PostedEvent :=
  match ev with
  | none => []
  | some e => [.keyboard e.key e.down flags]

/-- Embeds `CGEventPost` for a possibly-`None` mouse event, with its click
state; as above, posting `None` is a silent no-op. -/
def postMouse (ev : Option MouseEvent) (clickState : Nat) : List PostedEvent :=
  match ev with
  | none => []
  | some e => [.mouse e.kind e.pos clickState]

namespace PageNavigator

/-- Embeds `PageNavigator.press_key`: the key-down creation is checked and a
`None` raises `RuntimeError`; the key-up creation result is used unchecked
(`event_up` has no `None` test in the source), so a refused key-up is posted
as a no-op.  The returned list is the sequence of events actually posted. -/
def press_key (p : InputPlatform) (key_code : Nat) (modifiers : Nat) :
    Except String (List PostedEvent) :=
  match CGEventCreateKeyboardEvent p key_code true with
  | none => .error ("Failed to create keyboard event. Please grant Accessibility permission in " ++
      "System Preferences > Privacy & Security > Accessibility")
  | some event_down =>
    let posted := postKeyboard (some event_down) modifiers
    let event_up := CGEventCreateKeyboardEvent p key_code false
    .ok (posted ++ postKeyboard event_up modifiers)

/-- Embeds `PageNavigator.click`: move, left-down and left-up events are
created and posted with no `None` check anywhere, so the call never raises;
refused creations are silently skipped by the `NULL`-tolerant posts. -/
def click (p : InputPlatform) (x y : Int) : Except String (List PostedEvent) :=
  let point : Int × Int := (x, y)
  let move_event := CGEventCreateMouseEvent p kCGEventMouseMoved point
  let down_event := CGEventCreateMouseEvent p kCGEventLeftMouseDown point
  let up_event := CGEventCreateMouseEvent p kCGEventLeftMouseUp point
  .ok (postMouse move_event 0 ++ postMouse down_event 1 ++ postMouse up_event 1)

end PageNavigator

/-- Progress message `f"Capturing page {i + 1}/{page_count}..."`. -/
def capturingMsg (n i : Nat) : String :=
  "Capturing page " ++ toString (i + 1) ++ "/" ++ toString n ++ "..."

/-- Progress message `f"Compiling PDF to {output_path}..."`. -/
def compilingMsg (p : FsPath) : String :=
  "Compiling PDF to " ++ p ++ "..."

/-- Confirmation message `f"Done! Created {output_path}"`. -/
def doneMsg (p : FsPath) : String :=
  "Done! Created " ++ p

/-- Oracles for the effects performed by one `capture_book` run:
`capture i` is the outcome of the capture call at loop index `i`
(`capturer.capture_region(region)` or `capturer.capture_full_screen()`),
`navigate i` the outcome of `navigator.navigate_and_wait()` after page `i`,
and `save` the outcome of the physical PDF write performed inside
`compiler.compile` (`first_image.save(...)`). -/
structure OrchEnv where
  capture : Nat → Except String Image
  navigate : Nat → Except String Unit
  save : Except String Unit

/-- Observable steps of a `capture_book` run: a completed capture at a loop
index, a page-turn key press, the page-load wait, and the single Compiler
invocation with the number of collected images. -/
inductive OrchEvent
  | captured (i : Nat)
  | navigated
  | waited
  | compiled (count : Nat)
deriving DecidableEq

/-- State reached when the capture loop finishes or aborts: collected images,
observable events, stdout lines, and the pending exception if one was raised. -/
structure LoopState where
  images : List Image
  events : List OrchEvent
  outs : List String
  failure : Option String

/-- Embeds the `for i in range(page_count)` loop of `capture_book`: echo the
progress line, capture (aborting on an exception), append the image, and for
every index but the last run `navigator.navigate_and_wait()` (a right-arrow
key press followed by the page delay). -/
def capturePages (env : OrchEnv) (n : Nat) :
    List Nat → List Image → List OrchEvent → List String → LoopState
  | [], imgs, evs, outs => ⟨imgs, evs, outs, none⟩
  | i :: rest, imgs, evs, outs =>
    let outs1 := outs ++ [capturingMsg n i]
    match env.capture i with
    | .error e => ⟨imgs, evs, outs1, some e⟩
    | .ok img =>
      let imgs1 := imgs ++ [img]
      let evs1 := evs ++ [OrchEvent.captured i]
      if i < n - 1 then
        match env.navigate i with
        | .error e => ⟨imgs1, evs1, outs1, some e⟩
        | .ok _ =>
          capturePages env n rest imgs1 (evs1 ++ [OrchEvent.navigated, OrchEvent.waited]) outs1
      else
        capturePages env n rest imgs1 evs1 outs1

/-- Outcome of a whole `capture_book` run: collected images, events, stdout
and stderr lines, the process exit status, and the written document
(`none` when no PDF was produced). -/
structure RunResult where
  images : List Image
  events : List OrchEvent
  out : List String
  err : List String
  exit : Nat
  doc : Option PDFDoc

/-- Embeds `capture_book`: run the capture loop over `range(page_count)`,
then echo the compiling message and invoke `compiler.compile(images,
output_path)` once (default dpi 150); any exception from capture, navigation
or compilation is caught by the surrounding `try`, echoed as
`f"Error: {e}"` on the error stream, and turned into `sys.exit(1)`; on
success the confirmation line is echoed and the process exits 0. -/
def capture_book (env : OrchEnv) (page_count : Nat) (output_path : FsPath) : RunResult :=
  let st := capturePages env page_count (List.range page_count) [] [] []
  match st.failure with
  | some e => ⟨st.images, st.events, st.outs, ["Error: " ++ e], 1, none⟩
  | none =>
    let outs := st.outs ++ [compilingMsg output_path]
    let evs := st.events ++ [OrchEvent.compiled st.images.length]
    match PDFCompiler.compile st.images output_path 150 with
    | .error e => ⟨st.images, evs, outs, ["Error: " ++ e], 1, none⟩
    | .ok doc =>
      match env.save with
      | .error e => ⟨st.images, evs, outs, ["Error: " ++ e], 1, none⟩
      | .ok _ => ⟨st.images, evs, outs ++ [doneMsg output_path], [], 0, some doc⟩

/-- A file found by the `compile` command's glob: its path and its
modification timestamp (`os.path.getmtime`). -/
structure ImageFile where
  name : String
  mtime : Nat
deriving DecidableEq

/-- Embeds the sorting step of the `compile` CLI command.  Python's
`list.sort` is a stable sort; it is modelled by the stable
`List.insertionSort`.  `--sort time` sorts by modification time ascending
(`key=os.path.getmtime`), `--sort time-desc` the same with `reverse=True`
(stable descending), and any other choice sorts by filename. -/
def sortFiles (sort : String) (image_files : List ImageFile) : List ImageFile :=
  if sort = "time" then
    List.insertionSort (fun a b => a.mtime ≤ b.mtime) image_files
  else if sort = "time-desc" then
    List.insertionSort (fun a b => b.mtime ≤ a.mtime) image_files
  else
    List.insertionSort (fun a b => a.name ≤ b.name) image_files

/-! Sample inputs used by witnesses and counterexamples. -/

/-- A 1x1 opaque RGB image. -/
def sampleRGB : Image :=
  { mode := "RGB", width := 1, height := 1, pixels := [(10, 20, 30, 255)] }

/-- A second 1x1 opaque RGB image. -/
def sampleRGB2 : Image :=
  { mode := "RGB", width := 1, height := 1, pixels := [(40, 50, 60, 255)] }

/-- A 1x1 fully transparent RGBA image. -/
def sampleRGBA : Image :=
  { mode := "RGBA", width := 1, height := 1, pixels := [(10, 20, 30, 0)] }

/-- A 1x1 grayscale-with-alpha (`LA`) image: black at 50 percent alpha. -/
def sampleLA : Image :=
  { mode := "LA", width := 1, height := 1, pixels := [(0, 0, 0, 128)] }

/-- A 1x1 BGRA `CGImage`. -/
def sampleCG1 : CGImage :=
  { width := 1, height := 1, bytesPerRow := 4, data := [9, 8, 7, 6] }

/-- A 2x1 BGRA `CGImage` (a capture scaled 2x horizontally). -/
def sampleCG2 : CGImage :=
  { width := 2, height := 1, bytesPerRow := 8, data := [9, 8, 7, 6, 5, 4, 3, 2] }

/-- A 1x1 capture region at the origin. -/
def sampleRegion1 : CaptureRegion := { x := 0, y := 0, width := 1, height := 1 }

/-- The image `capture_region` returns for `sampleCG2` and `sampleRegion1`. -/
def resizedSample : Image :=
  (cg_image_to_pil sampleCG2).resize (1, 1) Resampling.lanczos

/-! Helper lemmas shared between claims. -/

/-- On a non-empty list `compile` performs exactly one write: the document at
the output path whose pages are the converted images in input order. -/
lemma compile_of_ne_nil (images : List Image) (out : FsPath) (dpi : Nat)
    (h : images ≠ []) :
    PDFCompiler.compile images out dpi =
      .ok { path := out, pages := images.map toRGBPage, resolution := dpi } := by
  cases images with
  | nil => exact absurd rfl h
  | cons a l => rfl

/-- Folding append over a list starting from an accumulator appends the list. -/
lemma foldl_append_singleton {α : Type} :
    ∀ (l acc : List α), l.foldl (fun a x => a ++ [x]) acc = acc ++ l := by
  intro l
  induction l with
  | nil => intro acc; simp
  | cons a t ih => intro acc; simp [ih, List.append_assoc]

/-! ### C1 — `compile` preserves page count and order -/

/-- C1: for every non-empty image list, `PDFCompiler.compile` produces a
document with one page per input image, the first image becoming page 1 and
the remaining images following in input order (page `i` is the converted
input image `i`). -/
theorem compile_page_count_and_order (images : List Image) (out : FsPath)
    (dpi : Nat) (h : images ≠ []) :
    ∃ doc, PDFCompiler.compile images out dpi = .ok doc ∧
      doc.pages.length = images.length ∧
      ∀ i : Nat, doc.pages[i]? = (images[i]?).map toRGBPage := by
  refine ⟨_, compile_of_ne_nil images out dpi h, by simp, ?_⟩
  intro i
  exact List.getElem?_map toRGBPage images i

/-- C1 witness: compiling two concrete images yields a two-page document in
input order. -/
theorem compile_page_count_and_order_witness :
    ∃ doc, PDFCompiler.compile [sampleRGB, sampleRGB2] "book.pdf" 150 = .ok doc ∧
      doc.pages.length = [sampleRGB, sampleRGB2].length ∧
      ∀ i : Nat, doc.pages[i]? = ([sampleRGB, sampleRGB2][i]?).map toRGBPage :=
  compile_page_count_and_order [sampleRGB, sampleRGB2] "book.pdf" 150 (by decide)

/-! ### C2 — alpha flattening in `compile` -/

/-- C2 counterexample: a mode-`LA` image has an alpha channel, yet `compile`
does not flatten it onto white with the alpha as a blend mask; it takes the
`convert('RGB')` branch, which discards the alpha.  At a half-transparent
black pixel the two disagree: conversion yields (0, 0, 0) where white
flattening would yield (127, 127, 127). -/
theorem compile_alpha_flatten_counterexample :
    hasAlpha sampleLA.mode = true ∧
    toRGBPage sampleLA ≠ flattenWhite sampleLA ∧
    (toRGBPage sampleLA).pixels = [(0, 0, 0, 255)] ∧
    (flattenWhite sampleLA).pixels = [(127, 127, 127, 255)] := by
  refine ⟨rfl, by decide, rfl, by decide⟩

/-- C2 amended: only images of mode exactly `RGBA` are flattened onto an
opaque white background using the alpha channel as a blend mask; every other
non-RGB image (including alpha-bearing modes such as `LA`) is converted to
RGB with its alpha discarded.  Every output page is an opaque RGB image
(the hypothesis is the representation invariant that an `RGB`-mode input
stores 255 in the unused alpha slot, as PIL `RGB` images have no alpha). -/
theorem compile_opaque_pages (img : Image)
    (hwf : img.mode = "RGB" → ∀ p ∈ img.pixels, p.2.2.2 = 255) :
    (img.mode = "RGBA" → toRGBPage img = flattenWhite img) ∧
    (img.mode ≠ "RGBA" → img.mode ≠ "RGB" → toRGBPage img = convertRGB img) ∧
    (toRGBPage img).mode = "RGB" ∧
    ∀ p ∈ (toRGBPage img).pixels, p.2.2.2 = 255 := by
  by_cases h1 : img.mode = "RGBA"
  · refine ⟨fun _ => by simp [toRGBPage, h1], fun h => absurd h1 h, ?_, ?_⟩
    · simp [toRGBPage, h1, flattenWhite]
    · simp only [toRGBPage, h1, if_pos, flattenWhite, ite_true]
      intro p hp
      simp only [List.mem_map] at hp
      obtain ⟨q, _, rfl⟩ := hp
      rfl
  · by_cases h2 : img.mode = "RGB"
    · refine ⟨fun h => absurd h h1, fun _ h => absurd h2 h, ?_, ?_⟩
      · simp [toRGBPage, h1, h2]
      · simpa [toRGBPage, h1, h2] using hwf h2
    · refine ⟨fun h => absurd h h1, fun _ _ => by simp [toRGBPage, h1, h2], ?_, ?_⟩
      · simp [toRGBPage, h1, h2, convertRGB]
      · simp only [toRGBPage, h1, h2, ite_false, ne_eq, not_false_iff, if_pos, convertRGB]
        intro p hp
        simp only [List.mem_map] at hp
        obtain ⟨q, _, rfl⟩ := hp
        rfl

/-- C2 amended, witness: the transparent RGBA sample is flattened onto white
and comes out as an opaque RGB page. -/
theorem compile_opaque_pages_witness :
    (toRGBPage sampleRGBA = flattenWhite sampleRGBA) ∧
    (toRGBPage sampleRGBA).mode = "RGB" :=
  ⟨(compile_opaque_pages sampleRGBA (by decide)).1 rfl,
   (compile_opaque_pages sampleRGBA (by decide)).2.2.1⟩

/-! ### C4 — compiling an empty sequence fails before writing -/

/-- C4: `compile` on an empty sequence raises
`ValueError("No images provided")` before the single output write, so no
document is produced. -/
theorem compile_empty_fails (out : FsPath) (dpi : Nat) :
    PDFCompiler.compile [] out dpi = .error "No images provided" ∧
    ∀ doc : PDFDoc, PDFCompiler.compile [] out dpi ≠ .ok doc := by
  exact ⟨rfl, fun doc h => Except.noConfusion h⟩

/-! ### C9 — `compile_from_files` delegates to `compile` -/

/-- C9: `compile_from_files` decodes the images at the given paths in order,
produces exactly the result of calling `compile` on that decoded sequence
(same document, same failure conditions), and on success has closed every
decoded image. -/
theorem compile_from_files_delegates (fsOpen : FsPath → Image)
    (paths : List FsPath) (out : FsPath) (dpi : Nat) :
    PDFCompiler.compile_from_files fsOpen paths out dpi =
      (PDFCompiler.compile (paths.map fsOpen) out dpi).map
        (fun doc => (doc, paths.map fsOpen)) := by
  unfold PDFCompiler.compile_from_files
  cases hc : PDFCompiler.compile (paths.map fsOpen) out dpi with
  | error e => simp [hc, Except.map]
  | ok doc => simp [hc, Except.map, foldl_append_singleton]

/-! ### C10 — every captured image is RGBA -/

/-- C10: every image produced by `capture_full_screen` or `capture_region`
has color mode `RGBA` (the `cg_image_to_pil` conversion always constructs an
RGBA image, and resizing preserves the mode), so in the Compiler every
captured page takes the white-background flattening branch. -/
theorem captured_images_rgba (platform : Option CGImage) (region : CaptureRegion) :
    (∀ img, ScreenCapturer.capture_full_screen platform = .ok img →
      img.mode = "RGBA" ∧ toRGBPage img = flattenWhite img) ∧
    (∀ img, ScreenCapturer.capture_region platform region = .ok img →
      img.mode = "RGBA" ∧ toRGBPage img = flattenWhite img) := by
  cases platform with
  | none => exact ⟨fun img h => Except.noConfusion h, fun img h => Except.noConfusion h⟩
  | some cg =>
    constructor
    · intro img h
      simp only [ScreenCapturer.capture_full_screen, Except.ok.injEq] at h
      subst h
      exact ⟨rfl, by simp [toRGBPage, cg_image_to_pil]⟩
    · intro img h
      simp only [ScreenCapturer.capture_region] at h
      split_ifs at h with hcond
      · simp only [Except.ok.injEq] at h
        subst h
        exact ⟨rfl, by simp [toRGBPage, Image.resize, cg_image_to_pil]⟩
      · simp only [Except.ok.injEq] at h
        subst h
        exact ⟨rfl, by simp [toRGBPage, cg_image_to_pil]⟩

/-- C10 witness: a concrete full-screen capture is RGBA and flattens onto
white in the Compiler. -/
theorem captured_images_rgba_witness :
    (cg_image_to_pil sampleCG1).mode = "RGBA" ∧
    toRGBPage (cg_image_to_pil sampleCG1) = flattenWhite (cg_image_to_pil sampleCG1) :=
  (captured_images_rgba (some sampleCG1) sampleRegion1).1 (cg_image_to_pil sampleCG1) rfl

/-! ### C3 — `capture_region` returns exactly the requested size -/

/-- C3: whenever `capture_region` returns an image, its pixel dimensions
equal the requested region's width and height exactly; if the platform image
had different dimensions (display scaling), the returned image is the
platform image resampled to the requested size with the LANCZOS filter. -/
theorem capture_region_exact_size (cg : CGImage) (region : CaptureRegion)
    (img : Image)
    (h : ScreenCapturer.capture_region (some cg) region = .ok img) :
    img.width = region.width ∧ img.height = region.height ∧
    ((cg_image_to_pil cg).width ≠ region.width ∨
        (cg_image_to_pil cg).height ≠ region.height →
      img = (cg_image_to_pil cg).resize (region.width, region.height)
          Resampling.lanczos ∧
      img.resampled = some Resampling.lanczos) := by
  simp only [ScreenCapturer.capture_region] at h
  split_ifs at h with hcond
  · simp only [Except.ok.injEq] at h
    subst h
    exact ⟨rfl, rfl, fun _ => ⟨rfl, rfl⟩⟩
  · simp only [Except.ok.injEq] at h
    subst h
    push_neg at hcond
    exact ⟨hcond.1, hcond.2, fun hne => absurd hcond (by tauto)⟩

/-- C3 witness: a 2x1 platform image captured for a 1x1 region comes back
resized to exactly 1x1 by LANCZOS resampling. -/
theorem capture_region_exact_size_witness :
    resizedSample.width = sampleRegion1.width ∧
    resizedSample.height = sampleRegion1.height ∧
    resizedSample.resampled = some Resampling.lanczos := by
  have t := capture_region_exact_size sampleCG2 sampleRegion1 resizedSample rfl
  exact ⟨t.1, t.2.1, (t.2.2 (Or.inl (by decide))).2⟩

/-! ### C8 — which refused event creations surface as failures -/

/-- An input platform that refuses to create every event. -/
def refuseAll : InputPlatform :=
  { keyboardEventOk := fun _ _ => false, mouseEventOk := fun _ _ => false }

/-- An input platform that refuses only key-up creations. -/
def refuseKeyUp : InputPlatform :=
  { keyboardEventOk := fun _ down => down, mouseEventOk := fun _ _ => true }

/-- C8 counterexample: on a platform that refuses to synthesize any input
event, `click` still succeeds (it posts nothing and raises nothing), and a
refused key-up creation is silently dropped by `press_key`; so refused
creations of the mouse-move, mouse-down, mouse-up and key-up events do not
surface as failures, contrary to the claim.  Only the key-down creation is
checked. -/
theorem navigator_refusal_counterexample :
    refuseAll.mouseEventOk kCGEventMouseMoved (100, 100) = false ∧
    refuseAll.mouseEventOk kCGEventLeftMouseDown (100, 100) = false ∧
    refuseAll.mouseEventOk kCGEventLeftMouseUp (100, 100) = false ∧
    PageNavigator.click refuseAll 100 100 = .ok [] ∧
    refuseKeyUp.keyboardEventOk keyCodeRightArrow false = false ∧
    PageNavigator.press_key refuseKeyUp keyCodeRightArrow 0 =
      .ok [.keyboard keyCodeRightArrow true 0] :=
  ⟨rfl, rfl, rfl, rfl, rfl, rfl⟩

/-- C8 amended: `press_key` fails exactly when the platform refuses the
key-down creation (the one checked call); a refused key-up creation and all
refused mouse-event creations are silently ignored, and `click` never
fails. -/
theorem navigator_refusal_amended (p : InputPlatform) (key mods : Nat)
    (x y : Int) :
    exOk (PageNavigator.press_key p key mods) = p.keyboardEventOk key true ∧
    exOk (PageNavigator.click p x y) = true := by
  constructor
  · by_cases h : p.keyboardEventOk key true = true
    · simp [PageNavigator.press_key, CGEventCreateKeyboardEvent, h, exOk]
    · simp only [Bool.not_eq_true] at h
      simp [PageNavigator.press_key, CGEventCreateKeyboardEvent, h, exOk]
  · rfl

/-! ### Orchestrator trace lemmas (shared by C5 and C7) -/

/-- The events one loop iteration contributes: a capture, followed by a page
turn and a wait unless the index is the last one. -/
def pageBlock (n i : Nat) : List OrchEvent :=
  OrchEvent.captured i ::
    (if i < n - 1 then [OrchEvent.navigated, OrchEvent.waited] else [])

/-- The full event trace of a successful `capture_book` loop over `n` pages. -/
def loopTrace (n : Nat) : List OrchEvent :=
  ((List.range n).map (pageBlock n)).flatten

/-- Tests for a page-turn event. -/
def isNavigated : OrchEvent → Bool
  | .navigated => true
  | _ => false

/-- Tests for a Compiler invocation event. -/
def isCompileCall : OrchEvent → Bool
  | .compiled _ => true
  | _ => false

/-- Tests for a capture event at a given loop index. -/
def isCapturedAt (j : Nat) : OrchEvent → Bool
  | .captured i => i == j
  | _ => false

/-- When every capture and navigation consulted by the loop succeeds, the
loop over `range' i k` appends exactly the images of indices `i..i+k-1` in
order, the corresponding event blocks, and one progress line per page, and
finishes without a pending exception. -/
lemma capturePages_ok (env : OrchEnv) (n : Nat) (f : Nat → Image)
    (hc : ∀ j, j < n → env.capture j = .ok (f j))
    (hnav : ∀ j, j < n - 1 → env.navigate j = .ok ()) :
    ∀ k i, i + k ≤ n → ∀ imgs evs outs,
      capturePages env n (List.range' i k) imgs evs outs =
        ⟨imgs ++ (List.range' i k).map f,
         evs ++ ((List.range' i k).map (pageBlock n)).flatten,
         outs ++ (List.range' i k).map (capturingMsg n),
         none⟩ := by
  intro k
  induction k with
  | zero => intro i _ imgs evs outs; simp [capturePages]
  | succ k ih =>
    intro i hik imgs evs outs
    have hi : i < n := by omega
    rw [List.range'_succ]
    simp only [capturePages, hc i hi]
    by_cases hlast : i < n - 1
    · rw [if_pos hlast, hnav i hlast, ih (i + 1) (by omega)]
      simp [pageBlock, hlast, List.append_assoc]
    · rw [if_neg hlast, ih (i + 1) (by omega)]
      simp [pageBlock, hlast, List.append_assoc]

/-- If the loop finished without a pending exception, every capture it
consulted succeeded, and so did every navigation before a non-final index. -/
lemma capturePages_none (env : OrchEnv) (n : Nat) :
    ∀ (l : List Nat) imgs evs outs,
      (capturePages env n l imgs evs outs).failure = none →
      ∀ j ∈ l, exOk (env.capture j) = true ∧
        (j < n - 1 → exOk (env.navigate j) = true) := by
  intro l
  induction l with
  | nil => intro _ _ _ _ j hj; cases hj
  | cons i rest ih =>
    intro imgs evs outs hnone j hj
    simp only [capturePages] at hnone
    cases hcap : env.capture i with
    | error e => rw [hcap] at hnone; simp at hnone
    | ok img =>
      rw [hcap] at hnone
      simp only [] at hnone
      by_cases hlast : i < n - 1
      · rw [if_pos hlast] at hnone
        cases hnav : env.navigate i with
        | error e => rw [hnav] at hnone; simp at hnone
        | ok u =>
          rw [hnav] at hnone
          simp only [] at hnone
          rcases List.mem_cons.mp hj with rfl | hjr
          · exact ⟨by simp [hcap, exOk], fun _ => by simp [hnav, exOk]⟩
          · exact ih _ _ _ hnone j hjr
      · rw [if_neg hlast] at hnone
        rcases List.mem_cons.mp hj with rfl | hjr
        · exact ⟨by simp [hcap, exOk], fun hlt => absurd hlt hlast⟩
        · exact ih _ _ _ hnone j hjr

/-- The loop records at most one capture event per remaining occurrence of an
index, on top of those already in the accumulator: no capture is retried. -/
lemma capturePages_count (env : OrchEnv) (n : Nat) (j : Nat) :
    ∀ (l : List Nat) imgs evs outs,
      ((capturePages env n l imgs evs outs).events).countP (isCapturedAt j) ≤
        evs.countP (isCapturedAt j) + l.count j := by
  intro l
  induction l with
  | nil => intro imgs evs outs; simp [capturePages]
  | cons i rest ih =>
    intro imgs evs outs
    simp only [capturePages]
    have hcnt : (evs ++ [OrchEvent.captured i]).countP (isCapturedAt j) =
        evs.countP (isCapturedAt j) + (if i == j then 1 else 0) := by
      simp [List.countP_append, List.countP_cons, isCapturedAt]
    have hcons : (i :: rest).count j = rest.count j + (if i == j then 1 else 0) := by
      simp [List.count_cons]
    cases hcap : env.capture i with
    | error e =>
      simp only []
      calc evs.countP (isCapturedAt j)
          ≤ evs.countP (isCapturedAt j) + (i :: rest).count j := Nat.le_add_right _ _
    | ok img =>
      simp only []
      by_cases hlast : i < n - 1
      · rw [if_pos hlast]
        cases hnav : env.navigate i with
        | error e =>
          simp only []
          rw [hcnt, hcons]
          omega
        | ok u =>
          simp only []
          have hstep := ih (imgs ++ [img])
            (evs ++ [OrchEvent.captured i] ++ [OrchEvent.navigated, OrchEvent.waited])
            (outs ++ [capturingMsg n i])
          have hacc : (evs ++ [OrchEvent.captured i] ++
              [OrchEvent.navigated, OrchEvent.waited]).countP (isCapturedAt j) =
              evs.countP (isCapturedAt j) + (if i == j then 1 else 0) := by
            simp [List.countP_append, List.countP_cons, isCapturedAt]
          rw [hacc] at hstep
          rw [hcons]
          omega
      · rw [if_neg hlast]
        have hstep := ih (imgs ++ [img]) (evs ++ [OrchEvent.captured i])
          (outs ++ [capturingMsg n i])
        rw [hcnt] at hstep
        rw [hcons]
        omega

/-- In the successful loop trace there is exactly one page-turn event per
page except the last. -/
lemma pageBlocks_countP_nav (n : Nat) :
    ∀ k i, i + k = n →
      (((List.range' i k).map (pageBlock n)).flatten).countP isNavigated = k - 1 := by
  intro k
  induction k with
  | zero => intro i _; simp
  | succ k ih =>
    intro i hik
    rw [List.range'_succ]
    by_cases hlast : i < n - 1
    · have hk : 1 ≤ k := by omega
      have := ih (i + 1) (by omega)
      simp only [List.map_cons, List.flatten_cons, List.countP_append, this]
      simp [pageBlock, hlast, List.countP_cons, isNavigated]
      omega
    · have hk : k = 0 := by omega
      subst hk
      simp [pageBlock, hlast, List.countP_cons, isNavigated]

/-- The loop itself never invokes the Compiler. -/
lemma pageBlocks_countP_compile (n : Nat) (l : List Nat) :
    ((l.map (pageBlock n)).flatten).countP isCompileCall = 0 := by
  induction l with
  | nil => simp
  | cons i rest ih =>
    simp only [List.map_cons, List.flatten_cons, List.countP_append, ih]
    by_cases hlast : i < n - 1 <;>
      simp [pageBlock, hlast, List.countP_cons, isCompileCall]

/-! ### C5 — shape of the orchestrator loop -/

/-- C5: for every requested page count `N ≥ 1` with all captures and
navigations succeeding, `capture_book` collects exactly the `N` captured
images in index order, its event trace is capture blocks `0..N-1` where every
capture except the last is followed by one navigation and one wait (so
exactly `N - 1` navigations), and the single Compiler invocation, over all
`N` images, is the final event. -/
theorem capture_book_loop_shape (env : OrchEnv) (n : Nat) (p : FsPath)
    (f : Nat → Image) (hn : 1 ≤ n)
    (hc : ∀ i, env.capture i = .ok (f i))
    (hnav : ∀ i, env.navigate i = .ok ()) :
    (capture_book env n p).images = (List.range n).map f ∧
    (capture_book env n p).events = loopTrace n ++ [OrchEvent.compiled n] ∧
    ((capture_book env n p).events.countP isNavigated) = n - 1 ∧
    ((capture_book env n p).events.countP isCompileCall) = 1 ∧
    (capture_book env n p).events.getLast? = some (OrchEvent.compiled n) := by
  have hst := capturePages_ok env n f (fun j _ => hc j) (fun j _ => hnav j)
    n 0 (by omega) [] [] []
  have hlen : ((List.range' 0 n).map f).length = n := by simp
  have hne : (List.range' 0 n).map f ≠ [] := by
    intro hnil
    rw [hnil] at hlen
    simp at hlen
    omega
  unfold capture_book
  rw [List.range_eq_range' n, hst]
  simp only [List.nil_append]
  rw [compile_of_ne_nil _ _ _ hne]
  have hnav1 : (loopTrace n).countP isNavigated = n - 1 := by
    unfold loopTrace
    rw [List.range_eq_range' n]
    exact pageBlocks_countP_nav n n 0 (by omega)
  have hcomp0 : (loopTrace n).countP isCompileCall = 0 := by
    unfold loopTrace
    rw [List.range_eq_range' n]
    exact pageBlocks_countP_compile n _
  have hflat : ((List.range' 0 n).map (pageBlock n)).flatten = loopTrace n := by
    unfold loopTrace
    rw [List.range_eq_range' n]
  cases env.save with
  | error e =>
    refine ⟨by simp [List.range_eq_range' n], ?_, ?_, ?_, ?_⟩
    · simp [hflat, hlen, List.range_eq_range' n]
    · simp [hflat, hlen, List.countP_append, hnav1, isNavigated]
    · simp [hflat, hlen, List.countP_append, hcomp0, isCompileCall]
    · simp [hflat, hlen]
  | ok u =>
    refine ⟨by simp [List.range_eq_range' n], ?_, ?_, ?_, ?_⟩
    · simp [hflat, hlen, List.range_eq_range' n]
    · simp [hflat, hlen, List.countP_append, hnav1, isNavigated]
    · simp [hflat, hlen, List.countP_append, hcomp0, isCompileCall]
    · simp [hflat, hlen]

/-- An environment in which every step succeeds and every capture yields the
RGB sample image. -/
def goodEnv : OrchEnv :=
  { capture := fun _ => .ok sampleRGB, navigate := fun _ => .ok (), save := .ok () }

/-- An environment whose very first capture raises (permission denied). -/
def badEnv : OrchEnv :=
  { capture := fun _ => .error "Screen capture failed", navigate := fun _ => .ok (),
    save := .ok () }

/-- C5 witness: a concrete 3-page run captures pages 0, 1, 2 in order with
two navigations and one final Compiler invocation over all three images. -/
theorem capture_book_loop_shape_witness :
    (capture_book goodEnv 3 "book.pdf").images =
      (List.range 3).map (fun _ => sampleRGB) ∧
    (capture_book goodEnv 3 "book.pdf").events =
      loopTrace 3 ++ [OrchEvent.compiled 3] ∧
    ((capture_book goodEnv 3 "book.pdf").events.countP isNavigated) = 3 - 1 ∧
    ((capture_book goodEnv 3 "book.pdf").events.countP isCompileCall) = 1 ∧
    (capture_book goodEnv 3 "book.pdf").events.getLast? =
      some (OrchEvent.compiled 3) :=
  capture_book_loop_shape goodEnv 3 "book.pdf" (fun _ => sampleRGB)
    (by omega) (fun _ => rfl) (fun _ => rfl)

/-! ### C7 — abort on exception, confirm on success -/

/-- All the effects one `capture_book` run needs: a positive page count,
every capture and every non-final navigation succeeding, and the PDF write
succeeding. -/
def runOk (env : OrchEnv) (n : Nat) : Prop :=
  1 ≤ n ∧ (∀ i, i < n → exOk (env.capture i) = true) ∧
    (∀ i, i < n - 1 → exOk (env.navigate i) = true) ∧ exOk env.save = true

/-- Outcome of one `capture_book` run (the screenshot workflow half of the
run-outcome claim): if any step raises — a capture, a navigation, or the
compilation (including the empty-sequence case and the output write) — the
run exits with status 1 and a single human-readable `Error: ...` line on the
error stream; if no step raises, it exits 0 with no error output and the
confirmation line last on standard output, having produced a document.  No
step is retried: each page index is captured at most once in any run. -/
lemma capture_book_outcome (env : OrchEnv) (n : Nat) (p : FsPath) :
    (runOk env n →
      (capture_book env n p).exit = 0 ∧ (capture_book env n p).err = [] ∧
      (capture_book env n p).out.getLast? = some (doneMsg p) ∧
      (capture_book env n p).doc.isSome = true) ∧
    (¬ runOk env n →
      (capture_book env n p).exit = 1 ∧
      ∃ e, (capture_book env n p).err = ["Error: " ++ e]) ∧
    (∀ i, ((capture_book env n p).events.countP (isCapturedAt i)) ≤ 1) := by
  refine ⟨?_, ?_, ?_⟩
  · rintro ⟨hn, hcap, hnav, hsave⟩
    have hc : ∀ j, j < n → env.capture j = .ok (exValue (env.capture j) sampleRGB) := by
      intro j hj
      have hx := hcap j hj
      cases hcj : env.capture j with
      | error e => rw [hcj] at hx; exact absurd hx (by simp [exOk])
      | ok a => simp [exValue, hcj]
    have hv : ∀ j, j < n - 1 → env.navigate j = .ok () := by
      intro j hj
      have hx := hnav j hj
      cases hcj : env.navigate j with
      | error e => rw [hcj] at hx; exact absurd hx (by simp [exOk])
      | ok u => cases u; rfl
    have hst := capturePages_ok env n (fun j => exValue (env.capture j) sampleRGB)
      hc hv n 0 (by omega) [] [] []
    have hlen : ((List.range' 0 n).map
        (fun j => exValue (env.capture j) sampleRGB)).length = n := by simp
    have hne : (List.range' 0 n).map
        (fun j => exValue (env.capture j) sampleRGB) ≠ [] := by
      intro hnil
      rw [hnil] at hlen
      simp at hlen
      omega
    unfold capture_book
    rw [List.range_eq_range' n, hst]
    simp only [List.nil_append]
    rw [compile_of_ne_nil _ _ _ hne]
    cases hs : env.save with
    | error e => rw [hs] at hsave; exact absurd hsave (by simp [exOk])
    | ok u => exact ⟨rfl, rfl, by simp, rfl⟩
  · intro hbad
    by_cases hn : 1 ≤ n
    · by_cases hcap : ∀ i, i < n → exOk (env.capture i) = true
      · by_cases hnv : ∀ i, i < n - 1 → exOk (env.navigate i) = true
        · by_cases hsv : exOk env.save = true
          · exact absurd ⟨hn, hcap, hnv, hsv⟩ hbad
          · have hc : ∀ j, j < n →
                env.capture j = .ok (exValue (env.capture j) sampleRGB) := by
              intro j hj
              have hx := hcap j hj
              cases hcj : env.capture j with
              | error e => rw [hcj] at hx; exact absurd hx (by simp [exOk])
              | ok a => simp [exValue, hcj]
            have hv : ∀ j, j < n - 1 → env.navigate j = .ok () := by
              intro j hj
              have hx := hnv j hj
              cases hcj : env.navigate j with
              | error e => rw [hcj] at hx; exact absurd hx (by simp [exOk])
              | ok u => cases u; rfl
            have hst := capturePages_ok env n
              (fun j => exValue (env.capture j) sampleRGB) hc hv n 0 (by omega) [] [] []
            have hlen : ((List.range' 0 n).map
                (fun j => exValue (env.capture j) sampleRGB)).length = n := by simp
            have hne : (List.range' 0 n).map
                (fun j => exValue (env.capture j) sampleRGB) ≠ [] := by
              intro hnil
              rw [hnil] at hlen
              simp at hlen
              omega
            unfold capture_book
            rw [List.range_eq_range' n, hst]
            simp only [List.nil_append]
            rw [compile_of_ne_nil _ _ _ hne]
            cases hs : env.save with
            | error e => exact ⟨rfl, e, rfl⟩
            | ok u =>
              rw [hs] at hsv
              exact absurd rfl hsv
        · push_neg at hnv
          obtain ⟨i, hi, hfail⟩ := hnv
          cases hf : (capturePages env n (List.range n) [] [] []).failure with
          | none =>
            have hall := capturePages_none env n (List.range n) [] [] [] hf i
              (List.mem_range.mpr (by omega))
            exact absurd (hall.2 hi) hfail
          | some e =>
            unfold capture_book
            simp only []
            rw [hf]
            exact ⟨rfl, e, rfl⟩
      · push_neg at hcap
        obtain ⟨i, hi, hfail⟩ := hcap
        cases hf : (capturePages env n (List.range n) [] [] []).failure with
        | none =>
          have hall := capturePages_none env n (List.range n) [] [] [] hf i
            (List.mem_range.mpr hi)
          exact absurd hall.1 hfail
        | some e =>
          unfold capture_book
          simp only []
          rw [hf]
          exact ⟨rfl, e, rfl⟩
    · have hn0 : n = 0 := by omega
      subst hn0
      exact ⟨rfl, "No images provided", rfl⟩
  · intro i
    have hcnt := capturePages_count env n i (List.range n) [] [] []
    have hrange : (List.range n).count i ≤ 1 :=
      List.nodup_iff_count_le_one.mp (List.nodup_range n) i
    simp only [List.countP_nil, Nat.zero_add] at hcnt
    unfold capture_book
    simp only []
    cases hf : (capturePages env n (List.range n) [] [] []).failure with
    | some e =>
      simp only []
      omega
    | none =>
      simp only []
      cases hcmp : PDFCompiler.compile
          (capturePages env n (List.range n) [] [] []).images p 150 with
      | error e =>
        simp [List.countP_append, List.countP_cons, isCapturedAt]
        omega
      | ok doc =>
        cases env.save with
        | error e =>
          simp [List.countP_append, List.countP_cons, isCapturedAt]
          omega
        | ok u =>
          simp [List.countP_append, List.countP_cons, isCapturedAt]
          omega

/-! The button workflow (`capture_with_button`, cli.py): the app's capture
button is clicked for each page, an optional confirm button dismisses a
dialog, and navigation happens between pages; no Compiler runs here (the app
writes the files itself).  Exceptions come from the navigator clicks and key
presses and are caught by the same `try`, echoed as `Error: ...` on the
error stream, and turned into `sys.exit(1)`. -/

/-- Oracles for the effects of one `capture_with_button` run:
`captureClick i` is the outcome of `navigator.click_and_wait(capture_button,
capture_delay)` at loop index `i`, `confirmClick i` the outcome of the
optional confirm click, and `navigate i` the outcome of
`navigator.navigate_and_wait()` after page `i`. -/
structure ButtonEnv where
  captureClick : Nat → Except String Unit
  confirmClick : Nat → Except String Unit
  navigate : Nat → Except String Unit

/-- Observable steps of a `capture_with_button` run. -/
inductive ButtonEvent
  | captureClicked (i : Nat)
  | confirmClicked (i : Nat)
  | pageTurned
  | pageWaited
deriving DecidableEq

/-- Tests for a capture-button click at a given loop index. -/
def isCaptureClickAt (j : Nat) : ButtonEvent → Bool
  | .captureClicked i => i == j
  | _ => false

/-- State reached when the button loop finishes or aborts. -/
structure BtnLoopState where
  events : List ButtonEvent
  outs : List String
  failure : Option String

/-- Progress line `f"Page {i + 1}/{page_count}: Clicking capture button..."`. -/
def pageClickMsg (n i : Nat) : String :=
  "Page " ++ toString (i + 1) ++ "/" ++ toString n ++ ": Clicking capture button..."

/-- Progress line `f"Page {i + 1}/{page_count}: Navigating to next page..."`. -/
def pageNavMsg (n i : Nat) : String :=
  "Page " ++ toString (i + 1) ++ "/" ++ toString n ++ ": Navigating to next page..."

/-- Header line `f"Starting capture of {page_count} pages..."`. -/
def startingMsg (n : Nat) : String :=
  "Starting capture of " ++ toString n ++ " pages..."

/-- Header line `f"Capture button at: ({x}, {y})"`. -/
def buttonAtMsg (b : Int × Int) : String :=
  "Capture button at: (" ++ toString b.1 ++ ", " ++ toString b.2 ++ ")"

/-- Header line `f"Confirm button at: ({x}, {y})"`. -/
def confirmAtMsg (b : Int × Int) : String :=
  "Confirm button at: (" ++ toString b.1 ++ ", " ++ toString b.2 ++ ")"

/-- Header line about focusing the viewer app. -/
def focusMsg : String := "Make sure Kyobo Library app is focused!"

/-- Header line echoed before the 3-second grace sleep. -/
def startingSoonMsg : String := "Starting in 3 seconds..."

/-- Confirmation line `f"Done! Captured {page_count} pages."`. -/
def doneButtonMsg (n : Nat) : String :=
  "Done! Captured " ++ toString n ++ " pages."

/-- Closing hint line about the capture folder. -/
def checkFolderMsg : String := "Check your capture folder for the saved images."

/-- Closing hint line about the compile command (the source wraps the
command name in single quotes, elided here). -/
def compileHintMsg : String := "You can use capture-pdf compile to combine them into PDF."

/-- The lines echoed before the loop starts (the confirm line appears only
when a confirm button was given), followed by the 3-second sleep. -/
def buttonHeader (n : Nat) (cb : Int × Int) (confb : Option (Int × Int)) :
    List String :=
  [startingMsg n, buttonAtMsg cb] ++
    (match confb with
     | some b => [confirmAtMsg b]
     | none => []) ++
    [focusMsg, "", startingSoonMsg]

/-- The lines echoed after a successful loop. -/
def buttonFooter (n : Nat) : List String :=
  ["", doneButtonMsg n, checkFolderMsg, compileHintMsg]

/-- Embeds the `for i in range(page_count)` loop of `capture_with_button`:
echo the page line, click the capture button (aborting on an exception),
click the confirm button when one was given, and for every index but the
last echo the navigation line and run `navigator.navigate_and_wait()`. -/
def buttonPages (env : ButtonEnv) (confirm : Bool) (n : Nat) :
    List Nat → List ButtonEvent → List String → BtnLoopState
  | [], evs, outs => ⟨evs, outs, none⟩
  | i :: rest, evs, outs =>
    let outs1 := outs ++ [pageClickMsg n i]
    match env.captureClick i with
    | .error e => ⟨evs, outs1, some e⟩
    | .ok _ =>
      let evs1 := evs ++ [ButtonEvent.captureClicked i]
      match (if confirm then env.confirmClick i else Except.ok ()) with
      | .error e => ⟨evs1, outs1, some e⟩
      | .ok _ =>
        let evs2 := evs1 ++ (if confirm then [ButtonEvent.confirmClicked i] else [])
        if i < n - 1 then
          let outs2 := outs1 ++ [pageNavMsg n i]
          match env.navigate i with
          | .error e => ⟨evs2, outs2, some e⟩
          | .ok _ =>
            buttonPages env confirm n rest
              (evs2 ++ [ButtonEvent.pageTurned, ButtonEvent.pageWaited]) outs2
        else
          buttonPages env confirm n rest evs2 outs1

/-- Outcome of a whole `capture_with_button` run. -/
structure ButtonRunResult where
  events : List ButtonEvent
  out : List String
  err : List String
  exit : Nat

/-- Embeds `capture_with_button`: echo the header, sleep 3 seconds, run the
button loop over `range(page_count)`, then echo the closing lines; any
exception is caught by the surrounding `try`, echoed as `f"Error: {e}"` on
the error stream, and turned into `sys.exit(1)`; on success the process
exits 0. -/
def capture_with_button (env : ButtonEnv) (page_count : Nat)
    (capture_button : Int × Int) (confirm_button : Option (Int × Int)) :
    ButtonRunResult :=
  let st := buttonPages env confirm_button.isSome page_count
    (List.range page_count) [] (buttonHeader page_count capture_button confirm_button)
  match st.failure with
  | some e => ⟨st.events, st.outs, ["Error: " ++ e], 1⟩
  | none => ⟨st.events, st.outs ++ buttonFooter page_count, [], 0⟩

/-- All the effects one `capture_with_button` run needs: every capture
click, every confirm click (when a confirm button was given), and every
non-final navigation succeeding. -/
def buttonRunOk (env : ButtonEnv) (confirm : Bool) (n : Nat) : Prop :=
  (∀ i, i < n → exOk (env.captureClick i) = true) ∧
    (confirm = true → ∀ i, i < n → exOk (env.confirmClick i) = true) ∧
    (∀ i, i < n - 1 → exOk (env.navigate i) = true)

/-- When every click and navigation consulted by the button loop succeeds,
the loop finishes without a pending exception. -/
lemma buttonPages_ok_failure (env : ButtonEnv) (confirm : Bool) (n : Nat) :
    ∀ (l : List Nat) evs outs,
      (∀ j ∈ l, exOk (env.captureClick j) = true ∧
        (confirm = true → exOk (env.confirmClick j) = true) ∧
        (j < n - 1 → exOk (env.navigate j) = true)) →
      (buttonPages env confirm n l evs outs).failure = none := by
  intro l
  induction l with
  | nil => intro evs outs _; rfl
  | cons i rest ih =>
    intro evs outs hall
    obtain ⟨hcap, hconf, hnav⟩ := hall i (List.mem_cons_self i rest)
    have hrest := fun j hj => hall j (List.mem_cons_of_mem i hj)
    simp only [buttonPages]
    cases hc : env.captureClick i with
    | error e => rw [hc] at hcap; exact absurd hcap (by simp [exOk])
    | ok u =>
      simp only []
      cases hcc : (if confirm then env.confirmClick i else Except.ok ()) with
      | error e =>
        exfalso
        cases hcb : confirm with
        | false => rw [hcb] at hcc; simp at hcc
        | true =>
          rw [hcb] at hcc
          simp only [if_pos] at hcc
          have hx := hconf hcb
          rw [hcc] at hx
          simp [exOk] at hx
      | ok v =>
        simp only []
        by_cases hlast : i < n - 1
        · rw [if_pos hlast]
          cases hn : env.navigate i with
          | error e =>
            exfalso
            have hx := hnav hlast
            rw [hn] at hx
            simp [exOk] at hx
          | ok w =>
            simp only []
            exact ih _ _ hrest
        · rw [if_neg hlast]
          exact ih _ _ hrest

/-- If the button loop finished without a pending exception, every click and
navigation it consulted succeeded. -/
lemma buttonPages_none (env : ButtonEnv) (confirm : Bool) (n : Nat) :
    ∀ (l : List Nat) evs outs,
      (buttonPages env confirm n l evs outs).failure = none →
      ∀ j ∈ l, exOk (env.captureClick j) = true ∧
        (confirm = true → exOk (env.confirmClick j) = true) ∧
        (j < n - 1 → exOk (env.navigate j) = true) := by
  intro l
  induction l with
  | nil => intro _ _ _ j hj; cases hj
  | cons i rest ih =>
    intro evs outs hnone j hj
    simp only [buttonPages] at hnone
    cases hcap : env.captureClick i with
    | error e => rw [hcap] at hnone; simp at hnone
    | ok u =>
      rw [hcap] at hnone
      simp only [] at hnone
      cases hcc : (if confirm then env.confirmClick i else Except.ok ()) with
      | error e => rw [hcc] at hnone; simp at hnone
      | ok v =>
        rw [hcc] at hnone
        simp only [] at hnone
        have hcnf : confirm = true → exOk (env.confirmClick i) = true := by
          intro hcf
          rw [hcf] at hcc
          simp only [if_pos] at hcc
          simp [hcc, exOk]
        by_cases hlast : i < n - 1
        · rw [if_pos hlast] at hnone
          cases hnav : env.navigate i with
          | error e => rw [hnav] at hnone; simp at hnone
          | ok w =>
            rw [hnav] at hnone
            simp only [] at hnone
            rcases List.mem_cons.mp hj with rfl | hjr
            · exact ⟨by simp [hcap, exOk], hcnf, fun _ => by simp [hnav, exOk]⟩
            · exact ih _ _ hnone j hjr
        · rw [if_neg hlast] at hnone
          rcases List.mem_cons.mp hj with rfl | hjr
          · exact ⟨by simp [hcap, exOk], hcnf, fun hlt => absurd hlt hlast⟩
          · exact ih _ _ hnone j hjr

/-- The button loop records at most one capture click per remaining
occurrence of an index, on top of those already in the accumulator: no
capture click is retried. -/
lemma buttonPages_count (env : ButtonEnv) (confirm : Bool) (n j : Nat) :
    ∀ (l : List Nat) evs outs,
      ((buttonPages env confirm n l evs outs).events).countP (isCaptureClickAt j) ≤
        evs.countP (isCaptureClickAt j) + l.count j := by
  intro l
  induction l with
  | nil => intro evs outs; simp [buttonPages]
  | cons i rest ih =>
    intro evs outs
    simp only [buttonPages]
    have hcons : (i :: rest).count j = rest.count j + (if i == j then 1 else 0) := by
      simp [List.count_cons]
    cases hc : env.captureClick i with
    | error e =>
      simp only []
      calc evs.countP (isCaptureClickAt j)
          ≤ evs.countP (isCaptureClickAt j) + (i :: rest).count j := Nat.le_add_right _ _
    | ok u =>
      simp only []
      have hev1 : (evs ++ [ButtonEvent.captureClicked i]).countP (isCaptureClickAt j) =
          evs.countP (isCaptureClickAt j) + (if i == j then 1 else 0) := by
        simp [List.countP_append, List.countP_cons, isCaptureClickAt]
      have hev2 : ((evs ++ [ButtonEvent.captureClicked i]) ++
          (if confirm then [ButtonEvent.confirmClicked i] else [])).countP
            (isCaptureClickAt j) =
          evs.countP (isCaptureClickAt j) + (if i == j then 1 else 0) := by
        cases confirm <;>
          simp [List.countP_append, List.countP_cons, isCaptureClickAt]
      cases hcc : (if confirm then env.confirmClick i else Except.ok ()) with
      | error e =>
        simp only []
        rw [hev1, hcons]
        omega
      | ok v =>
        simp only []
        by_cases hlast : i < n - 1
        · rw [if_pos hlast]
          cases hn : env.navigate i with
          | error e =>
            simp only []
            rw [hev2, hcons]
            omega
          | ok w =>
            simp only []
            have hev3 : (((evs ++ [ButtonEvent.captureClicked i]) ++
                (if confirm then [ButtonEvent.confirmClicked i] else [])) ++
                [ButtonEvent.pageTurned, ButtonEvent.pageWaited]).countP
                  (isCaptureClickAt j) =
                evs.countP (isCaptureClickAt j) + (if i == j then 1 else 0) := by
              cases confirm <;>
                simp [List.countP_append, List.countP_cons, isCaptureClickAt]
            have hstep := ih (((evs ++ [ButtonEvent.captureClicked i]) ++
                (if confirm then [ButtonEvent.confirmClicked i] else [])) ++
                [ButtonEvent.pageTurned, ButtonEvent.pageWaited])
              ((outs ++ [pageClickMsg n i]) ++ [pageNavMsg n i])
            rw [hev3] at hstep
            rw [hcons]
            omega
        · rw [if_neg hlast]
          have hstep := ih ((evs ++ [ButtonEvent.captureClicked i]) ++
              (if confirm then [ButtonEvent.confirmClicked i] else []))
            (outs ++ [pageClickMsg n i])
          rw [hev2] at hstep
          rw [hcons]
          omega

/-- Outcome of one `capture_with_button` run (the button workflow half of
the run-outcome claim): any exception from a click or a navigation aborts
the run with exit status 1 and a single `Error: ...` line on the error
stream; if no step raises, the run exits 0 with no error output and the
confirmation line among the standard output.  No capture click is
retried. -/
lemma capture_with_button_outcome (env : ButtonEnv) (n : Nat)
    (cb : Int × Int) (confb : Option (Int × Int)) :
    (buttonRunOk env confb.isSome n →
      (capture_with_button env n cb confb).exit = 0 ∧
      (capture_with_button env n cb confb).err = [] ∧
      doneButtonMsg n ∈ (capture_with_button env n cb confb).out) ∧
    (¬ buttonRunOk env confb.isSome n →
      (capture_with_button env n cb confb).exit = 1 ∧
      ∃ e, (capture_with_button env n cb confb).err = ["Error: " ++ e]) ∧
    (∀ i, ((capture_with_button env n cb confb).events.countP
      (isCaptureClickAt i)) ≤ 1) := by
  refine ⟨?_, ?_, ?_⟩
  · rintro ⟨hcap, hconf, hnav⟩
    have hall : ∀ j ∈ List.range n, exOk (env.captureClick j) = true ∧
        (confb.isSome = true → exOk (env.confirmClick j) = true) ∧
        (j < n - 1 → exOk (env.navigate j) = true) := by
      intro j hj
      have hjn := List.mem_range.mp hj
      exact ⟨hcap j hjn, fun hc => hconf hc j hjn, fun hl => hnav j hl⟩
    have hnone := buttonPages_ok_failure env confb.isSome n (List.range n) []
      (buttonHeader n cb confb) hall
    unfold capture_with_button
    simp only []
    rw [hnone]
    refine ⟨rfl, rfl, ?_⟩
    simp [buttonFooter]
  · intro hbad
    by_cases hcap : ∀ i, i < n → exOk (env.captureClick i) = true
    · by_cases hconf : confb.isSome = true →
          ∀ i, i < n → exOk (env.confirmClick i) = true
      · by_cases hnv : ∀ i, i < n - 1 → exOk (env.navigate i) = true
        · exact absurd ⟨hcap, hconf, hnv⟩ hbad
        · push_neg at hnv
          obtain ⟨i, hi, hfail⟩ := hnv
          cases hf : (buttonPages env confb.isSome n (List.range n) []
              (buttonHeader n cb confb)).failure with
          | none =>
            have hall := buttonPages_none env confb.isSome n (List.range n) []
              (buttonHeader n cb confb) hf i (List.mem_range.mpr (by omega))
            exact absurd (hall.2.2 hi) hfail
          | some e =>
            unfold capture_with_button
            simp only []
            rw [hf]
            exact ⟨rfl, e, rfl⟩
      · push_neg at hconf
        obtain ⟨hcs, i, hi, hfail⟩ := hconf
        cases hf : (buttonPages env confb.isSome n (List.range n) []
            (buttonHeader n cb confb)).failure with
        | none =>
          have hall := buttonPages_none env confb.isSome n (List.range n) []
            (buttonHeader n cb confb) hf i (List.mem_range.mpr hi)
          exact absurd (hall.2.1 hcs) hfail
        | some e =>
          unfold capture_with_button
          simp only []
          rw [hf]
          exact ⟨rfl, e, rfl⟩
    · push_neg at hcap
      obtain ⟨i, hi, hfail⟩ := hcap
      cases hf : (buttonPages env confb.isSome n (List.range n) []
          (buttonHeader n cb confb)).failure with
      | none =>
        have hall := buttonPages_none env confb.isSome n (List.range n) []
          (buttonHeader n cb confb) hf i (List.mem_range.mpr hi)
        exact absurd hall.1 hfail
      | some e =>
        unfold capture_with_button
        simp only []
        rw [hf]
        exact ⟨rfl, e, rfl⟩
  · intro i
    have hcnt := buttonPages_count env confb.isSome n i (List.range n) []
      (buttonHeader n cb confb)
    have hrange : (List.range n).count i ≤ 1 :=
      List.nodup_iff_count_le_one.mp (List.nodup_range n) i
    simp only [List.countP_nil, Nat.zero_add] at hcnt
    unfold capture_with_button
    simp only []
    cases hf : (buttonPages env confb.isSome n (List.range n) []
        (buttonHeader n cb confb)).failure with
    | some e =>
      simp only []
      omega
    | none =>
      simp only []
      omega

/-- C7: in both capture workflows — `capture_book` (screenshot mode, where
the steps are captures, navigations and the compilation) and
`capture_with_button` (button mode, where the steps are button clicks and
navigations) — any exception raised by a step aborts the run with exit
status 1 and a single human-readable `Error: ...` line on the error stream,
with no step retried (each page index is captured or clicked at most once);
when no step raises, the run exits 0 with no error output and a confirmation
message on standard output (and in screenshot mode a document is
produced). -/
theorem runs_abort_or_confirm :
    (∀ (env : OrchEnv) (n : Nat) (p : FsPath),
      (runOk env n →
        (capture_book env n p).exit = 0 ∧ (capture_book env n p).err = [] ∧
        (capture_book env n p).out.getLast? = some (doneMsg p) ∧
        (capture_book env n p).doc.isSome = true) ∧
      (¬ runOk env n →
        (capture_book env n p).exit = 1 ∧
        ∃ e, (capture_book env n p).err = ["Error: " ++ e]) ∧
      (∀ i, ((capture_book env n p).events.countP (isCapturedAt i)) ≤ 1)) ∧
    (∀ (env : ButtonEnv) (n : Nat) (cb : Int × Int) (confb : Option (Int × Int)),
      (buttonRunOk env confb.isSome n →
        (capture_with_button env n cb confb).exit = 0 ∧
        (capture_with_button env n cb confb).err = [] ∧
        doneButtonMsg n ∈ (capture_with_button env n cb confb).out) ∧
      (¬ buttonRunOk env confb.isSome n →
        (capture_with_button env n cb confb).exit = 1 ∧
        ∃ e, (capture_with_button env n cb confb).err = ["Error: " ++ e]) ∧
      (∀ i, ((capture_with_button env n cb confb).events.countP
        (isCaptureClickAt i)) ≤ 1)) :=
  ⟨capture_book_outcome, capture_with_button_outcome⟩

/-- A button environment in which every click and navigation succeeds. -/
def goodButtonEnv : ButtonEnv :=
  { captureClick := fun _ => .ok (), confirmClick := fun _ => .ok (),
    navigate := fun _ => .ok () }

/-- A button environment whose very first capture click raises. -/
def badButtonEnv : ButtonEnv :=
  { captureClick := fun _ => .error "Failed to create keyboard event",
    confirmClick := fun _ => .ok (), navigate := fun _ => .ok () }

/-- C7 witness: concrete all-success runs of both workflows exit 0 with
their confirmation lines, and runs whose first step raises exit 1 with the
error line. -/
theorem runs_abort_or_confirm_witness :
    ((capture_book goodEnv 1 "out.pdf").exit = 0 ∧
      (capture_book goodEnv 1 "out.pdf").out.getLast? = some (doneMsg "out.pdf")) ∧
    ((capture_book badEnv 1 "out.pdf").exit = 1 ∧
      ∃ e, (capture_book badEnv 1 "out.pdf").err = ["Error: " ++ e]) ∧
    ((capture_with_button goodButtonEnv 2 (100, 200) none).exit = 0 ∧
      doneButtonMsg 2 ∈ (capture_with_button goodButtonEnv 2 (100, 200) none).out) ∧
    ((capture_with_button badButtonEnv 2 (100, 200) none).exit = 1 ∧
      ∃ e, (capture_with_button badButtonEnv 2 (100, 200) none).err =
        ["Error: " ++ e]) := by
  have hgood := (runs_abort_or_confirm.1 goodEnv 1 "out.pdf").1
    ⟨Nat.le_refl 1, fun i _ => rfl, fun i hi => absurd hi (by omega), rfl⟩
  have hbad := (runs_abort_or_confirm.1 badEnv 1 "out.pdf").2.1
    (fun h => Bool.noConfusion (h.2.1 0 (by omega)))
  have hbgood := (runs_abort_or_confirm.2 goodButtonEnv 2 (100, 200) none).1
    ⟨fun i _ => rfl, fun h => Bool.noConfusion h, fun i _ => rfl⟩
  have hbbad := (runs_abort_or_confirm.2 badButtonEnv 2 (100, 200) none).2.1
    (fun h => Bool.noConfusion (h.1 0 (by omega)))
  exact ⟨⟨hgood.1, hgood.2.2.1⟩, hbad, ⟨hbgood.1, hbgood.2.2⟩, hbbad⟩

/-! ### C6 — `--sort time` is the reverse of `--sort time-desc` -/

/-- C6: over any file set with pairwise distinct modification timestamps,
the ordering produced by `compile --sort time` is exactly the reverse of the
ordering produced by `compile --sort time-desc`. -/
theorem compile_sort_time_reverse (files : List ImageFile)
    (h : (files.map ImageFile.mtime).Nodup) :
    sortFiles "time" files = (sortFiles "time-desc" files).reverse := by
  haveI : IsTotal ImageFile (fun a b => a.mtime ≤ b.mtime) :=
    ⟨fun a b => Nat.le_total a.mtime b.mtime⟩
  haveI : IsTrans ImageFile (fun a b => a.mtime ≤ b.mtime) :=
    ⟨fun _ _ _ h1 h2 => Nat.le_trans h1 h2⟩
  haveI : IsTotal ImageFile (fun a b => b.mtime ≤ a.mtime) :=
    ⟨fun a b => (Nat.le_total b.mtime a.mtime)⟩
  haveI : IsTrans ImageFile (fun a b => b.mtime ≤ a.mtime) :=
    ⟨fun _ _ _ h1 h2 => Nat.le_trans h2 h1⟩
  haveI : IsAntisymm ImageFile (fun a b => b.mtime < a.mtime) :=
    ⟨fun a b h1 h2 => absurd (Nat.lt_trans h1 h2) (Nat.lt_irrefl _)⟩
  have hst : sortFiles "time" files =
      List.insertionSort (fun a b => a.mtime ≤ b.mtime) files := by
    simp [sortFiles]
  have hsd : sortFiles "time-desc" files =
      List.insertionSort (fun a b => b.mtime ≤ a.mtime) files := by
    simp [sortFiles]
  rw [hst, hsd]
  have pasc : List.Perm
      (List.insertionSort (fun a b : ImageFile => a.mtime ≤ b.mtime) files) files :=
    List.perm_insertionSort _ files
  have pdesc : List.Perm
      (List.insertionSort (fun a b : ImageFile => b.mtime ≤ a.mtime) files) files :=
    List.perm_insertionSort _ files
  have sasc : List.Sorted (fun a b : ImageFile => a.mtime ≤ b.mtime)
      (List.insertionSort (fun a b => a.mtime ≤ b.mtime) files) :=
    List.sorted_insertionSort _ files
  have sdesc : List.Sorted (fun a b : ImageFile => b.mtime ≤ a.mtime)
      (List.insertionSort (fun a b => b.mtime ≤ a.mtime) files) :=
    List.sorted_insertionSort _ files
  have ndasc : ((List.insertionSort (fun a b : ImageFile => a.mtime ≤ b.mtime)
      files).map ImageFile.mtime).Nodup :=
    ((pasc.map ImageFile.mtime).nodup_iff).mpr h
  have nddesc : ((List.insertionSort (fun a b : ImageFile => b.mtime ≤ a.mtime)
      files).map ImageFile.mtime).Nodup :=
    ((pdesc.map ImageFile.mtime).nodup_iff).mpr h
  have neasc : List.Pairwise (fun a b : ImageFile => a.mtime ≠ b.mtime)
      (List.insertionSort (fun a b => a.mtime ≤ b.mtime) files) :=
    (List.pairwise_map).mp ndasc
  have nedesc : List.Pairwise (fun a b : ImageFile => a.mtime ≠ b.mtime)
      (List.insertionSort (fun a b => b.mtime ≤ a.mtime) files) :=
    (List.pairwise_map).mp nddesc
  have sasc2 : List.Pairwise (fun a b : ImageFile => a.mtime < b.mtime)
      (List.insertionSort (fun a b => a.mtime ≤ b.mtime) files) :=
    (sasc.and neasc).imp fun hab => Nat.lt_of_le_of_ne hab.1 hab.2
  have sdesc2 : List.Pairwise (fun a b : ImageFile => b.mtime < a.mtime)
      (List.insertionSort (fun a b => b.mtime ≤ a.mtime) files) :=
    (sdesc.and nedesc).imp fun hab => Nat.lt_of_le_of_ne hab.1 (Ne.symm hab.2)
  have srev : List.Pairwise (fun a b : ImageFile => b.mtime < a.mtime)
      (List.insertionSort (fun a b => a.mtime ≤ b.mtime) files).reverse :=
    List.pairwise_reverse.mpr sasc2
  have pdr : List.Perm
      (List.insertionSort (fun a b : ImageFile => b.mtime ≤ a.mtime) files)
      (List.insertionSort (fun a b : ImageFile => a.mtime ≤ b.mtime) files).reverse :=
    pdesc.trans (pasc.symm.trans
      (List.insertionSort (fun a b : ImageFile => a.mtime ≤ b.mtime)
        files).reverse_perm.symm)
  have hdesc_eq :
      List.insertionSort (fun a b : ImageFile => b.mtime ≤ a.mtime) files =
        (List.insertionSort (fun a b : ImageFile => a.mtime ≤ b.mtime) files).reverse :=
    List.eq_of_perm_of_sorted pdr sdesc2 srev
  rw [hdesc_eq, List.reverse_reverse]

/-- Three files with pairwise distinct modification times. -/
def sampleFiles : List ImageFile :=
  [{ name := "c.png", mtime := 30 }, { name := "a.png", mtime := 10 },
   { name := "b.png", mtime := 20 }]

/-- C6 witness: on three concrete files with distinct timestamps the
ascending ordering is the reverse of the descending one. -/
theorem compile_sort_time_reverse_witness :
    (sampleFiles.map ImageFile.mtime).Nodup ∧
    sortFiles "time" sampleFiles = (sortFiles "time-desc" sampleFiles).reverse :=
  ⟨by decide, compile_sort_time_reverse sampleFiles (by decide)⟩

end CapturePdf
